import Mathlib

/-!
Shallow embedding of the organization-members page of the shortener
dashboard (the `OrganizationMembersPage` component in
`src/layouts/AuthenticatedLayout.tsx`), together with proofs of the
properties stated about it.

Pure fragments of the component (the client-side sort in `fetchMembers`,
the zod invite schema, the payload construction in the role/URL/invite
handlers, the guard conditions of the edit affordances and the sort-header
state transition) are translated into Lean functions.  Asynchronous API
calls are modelled by passing the call result as an explicit argument, and
the `setXxx` state writes of a handler are modelled by returning the
written values as a record.
-/

namespace ShortenerDashboard

/-- Member roles. The fixed enumeration used by the page; `ROLE_LABELS` in
the source is a total record over exactly these six roles, matching the
enumeration given in section 3 of the spec (owner, admin,
organization-manager, members-manager, urls-manager, member). -/
inductive MemberRole where
  | ORGANIZATION_OWNER
  | ORGANIZATION_ADMIN
  | ORGANIZATION_MANAGER
  | ORGANIZATION_MEMBERS_MANAGER
  | ORGANIZATION_URLS_MANAGER
  | ORGANIZATION_MEMBER
deriving DecidableEq, Repr

/-- Embedding of `OrganizationMemberDto`: one row of the members table, as consumed by
the page (`id`, `fullName`, `email`, `pictureUrl`, `roles`,
`allowedAllUrls`, `allowedUrls`). -/
structure OrganizationMemberDto where
  id : Nat
  fullName : String
  email : String
  pictureUrl : Option String
  roles : List MemberRole
  allowedAllUrls : Bool
  allowedUrls : List Nat
deriving DecidableEq, Repr

/-- Embedding of `ShortUrlDto`: the fields of a short URL used by the page. -/
structure ShortUrlDto where
  id : Nat
  originalUrl : String
deriving DecidableEq, Repr

/-- The comparator passed to `res.entries.sort` in `fetchMembers`:
`(b.roles.includes(ORGANIZATION_OWNER) ? 1 : 0) -
 (a.roles.includes(ORGANIZATION_OWNER) ? 1 : 0)`. -/
def fetchMembersComparator (a b : OrganizationMemberDto) : Int :=
  (if b.roles.contains MemberRole.ORGANIZATION_OWNER then 1 else 0) -
    (if a.roles.contains MemberRole.ORGANIZATION_OWNER then 1 else 0)

/-- Embedding of `res.entries.sort(comparator)` in `fetchMembers`.  JavaScript
`Array.prototype.sort` is a stable sort that places `a` before `b`
whenever the comparator value is negative, modelled as a stable merge
sort with respect to `comparator a b <= 0`.  The result is the list
stored with `setMembers` for rendering. -/
def fetchMembersSorted (entries : List OrganizationMemberDto) :
    List OrganizationMemberDto :=
  entries.mergeSort fun a b => decide (fetchMembersComparator a b ≤ 0)

/-! ### The invite form and its zod schema -/

/-- Characters admitted by the zod email pattern in the body of the local
part: letters, digits, underscore, apostrophe (codepoint 39), plus, minus,
dot (case-insensitive classes in the pattern). -/
def emailLocalBodyChar (c : Char) : Bool :=
  c.isAlphanum || c == '_' || c.toNat == 39 || c == '+' || c == '-' || c == '.'

/-- Characters admitted as the final character of the local part:
letters, digits, underscore, plus, minus. -/
def emailLocalEndChar (c : Char) : Bool :=
  c.isAlphanum || c == '_' || c == '+' || c == '-'

/-- Characters admitted after the first character of a domain label. -/
def emailLabelChar (c : Char) : Bool :=
  c.isAlphanum || c == '-'

/-- A domain label: one letter or digit followed by letters, digits or
hyphens. -/
def emailLabelOk (l : List Char) : Bool :=
  match l with
  | [] => false
  | c :: rest => c.isAlphanum && rest.all emailLabelChar

/-- The final domain component: at least two letters. -/
def emailTldOk (l : List Char) : Bool :=
  decide (2 ≤ l.length) && l.all Char.isAlpha

/-- Does the character list contain two consecutive dots? -/
def hasDoubleDot : List Char → Bool
  | [] => false
  | [_] => false
  | a :: b :: rest => (a == '.' && b == '.') || hasDoubleDot (b :: rest)

/-- Split a character list on a separator character (the pieces between
occurrences of the separator, in order; empty pieces are kept). -/
def splitOnChar (sep : Char) : List Char → List (List Char)
  | [] => [[]]
  | c :: rest =>
    let r := splitOnChar sep rest
    if c == sep then
      [] :: r
    else
      match r with
      | [] => [[c]]
      | h :: t => (c :: h) :: t

/-- The local part of the email: a possibly empty run of local-body
characters followed by one local-end character. -/
def emailLocalOk (l : List Char) : Bool :=
  match l.getLast? with
  | none => false
  | some c => emailLocalEndChar c && l.dropLast.all emailLocalBodyChar

/-- The domain part of the email: one or more dot-terminated labels
followed by a final component of at least two letters. -/
def emailDomainOk (d : List Char) : Bool :=
  let labels := splitOnChar '.' d
  match labels.getLast? with
  | none => false
  | some tld =>
    emailTldOk tld && decide (1 ≤ labels.dropLast.length) &&
      labels.dropLast.all emailLabelOk

/-- Embedding of `z.string().email()`: the zod email pattern, anchored at both ends and
case-insensitive.  The string must not start with a dot and must not
contain two consecutive dots anywhere; since no character class of the
pattern contains the at sign, the string splits at its unique at sign into
a local part and a domain part, each checked by the pieces above. -/
def zodEmailCheck (s : String) : Bool :=
  let cs := s.data
  (match cs.head? with
   | none => true
   | some c => !(c == '.')) &&
  !hasDoubleDot cs &&
  (match splitOnChar '@' cs with
   | [localPart, domainPart] => emailLocalOk localPart && emailDomainOk domainPart
   | _ => false)

/-- The invite form data held in the `inviteData` state:
`InviteMemberDto & { roles: MemberRole[] }`. -/
structure InviteFormData where
  firstname : String
  lastname : String
  email : String
  allowedAllUrls : Bool
  allowedUrls : List Nat
  roles : List MemberRole
deriving DecidableEq, Repr

/-- One zod validation issue, reduced to the parts `handleInviteSubmit`
consumes: the first path element (`e.path[0]`) and the message. -/
structure ZodIssue where
  path0 : String
  message : String
deriving DecidableEq, Repr

/-- Membership in the role enum of the invite schema:
`z.enum([MEMBERS_MANAGER, MANAGER, URLS_MANAGER, MEMBER])`. -/
def inviteRoleAllowed (r : MemberRole) : Bool :=
  r == MemberRole.ORGANIZATION_MEMBERS_MANAGER ||
  r == MemberRole.ORGANIZATION_MANAGER ||
  r == MemberRole.ORGANIZATION_URLS_MANAGER ||
  r == MemberRole.ORGANIZATION_MEMBER

/-- The issues raised by the base object schema of `inviteSchema`, in shape
order: `firstname` nonempty, `lastname` nonempty, `email` well-formed,
every element of `roles` in the schema enum (`allowedAllUrls` and
`allowedUrls` carry no further constraint at this stage). -/
def inviteBaseIssues (d : InviteFormData) : List ZodIssue :=
  (if d.firstname.length == 0 then
    [ZodIssue.mk "firstname" "String must contain at least 1 character(s)"]
  else []) ++
  (if d.lastname.length == 0 then
    [ZodIssue.mk "lastname" "String must contain at least 1 character(s)"]
  else []) ++
  (if zodEmailCheck d.email then []
   else [ZodIssue.mk "email" "Invalid email"]) ++
  ((d.roles.filter fun r => !inviteRoleAllowed r).map fun _ =>
    ZodIssue.mk "roles" "Invalid enum value")

/-- Did the base object parse abort?  In zod v3 a failed string check
(nonempty, email) only marks the parse dirty, keeping the parsed value,
while an out-of-enum element of `roles` is a type-level failure that
aborts the whole object parse.  Of the invite schema fields only `roles`
can abort here: the form fields are strings, a boolean and a number
list. -/
def inviteSchemaAborted (d : InviteFormData) : Bool :=
  d.roles.any fun r => !inviteRoleAllowed r

/-- Embedding of `inviteSchema.safeParse` with zod v3 effect semantics:
when the base object parse aborts, the refinement does not run and the
collected field issues are returned; otherwise the refinement
`data.allowedAllUrls || (data.allowedUrls && data.allowedUrls.length > 0)`
runs even on a dirty parse, appending on failure its issue with message
`Select at least one URL or Allow All URLs` at path `allowedUrls` after
the field issues; the parse succeeds when no issue was recorded. -/
def inviteSchemaSafeParse (d : InviteFormData) :
    Except (List ZodIssue) InviteFormData :=
  if inviteSchemaAborted d then
    Except.error (inviteBaseIssues d)
  else
    let issues := inviteBaseIssues d ++
      (if d.allowedAllUrls || decide (0 < d.allowedUrls.length) then []
       else [ZodIssue.mk "allowedUrls" "Select at least one URL or Allow All URLs"])
    if issues.isEmpty then Except.ok d else Except.error issues

/-- Outcome of `handleInviteSubmit`: either the parse failed, the
`inviteErrors` state is set to the field/message pairs and no request is
issued, or `ApiClient.inviteMember` is called with the constructed dto. -/
inductive InviteSubmitAction where
  | rejected (inviteErrors : List (String × String))
  | request (dto : InviteFormData)
deriving DecidableEq, Repr

/-- Embedding of `handleInviteSubmit` up to the API call: validate `inviteData` with
`inviteSchema`; on failure collect `(e.path[0], e.message)` into the
`inviteErrors` state and return; on success call `ApiClient.inviteMember`
with `{...inviteData, roles: roles.length > 0 ? roles : [MEMBER]}`. -/
def handleInviteSubmit (d : InviteFormData) : InviteSubmitAction :=
  match inviteSchemaSafeParse d with
  | Except.error issues =>
    InviteSubmitAction.rejected (issues.map fun i => (i.path0, i.message))
  | Except.ok _ =>
    InviteSubmitAction.request
      { d with
        roles :=
          if decide (0 < d.roles.length) then d.roles
          else [MemberRole.ORGANIZATION_MEMBER] }

/-! ### Role editing, URL-access editing and row affordances -/

/-- Embedding of `member.email === currentEmail`, where `currentEmail` is
`getAccessToken()?.username` and may be absent (a strict comparison with
an absent value is false). -/
def isSelfMember (currentEmail : Option String) (m : OrganizationMemberDto) : Bool :=
  currentEmail == some m.email

/-- Embedding of `member.roles.includes(ORGANIZATION_OWNER)`. -/
def isOwnerMember (m : OrganizationMemberDto) : Bool :=
  m.roles.contains MemberRole.ORGANIZATION_OWNER

/-- Embedding of `member.roles.filter((r) => r !== ORGANIZATION_OWNER)`: the initial
role selection stored in `newRoles` when the roles menu opens. -/
def initialEditRoles (m : OrganizationMemberDto) : List MemberRole :=
  m.roles.filter fun r => !(r == MemberRole.ORGANIZATION_OWNER)

/-- The state written by a successful `handleRolesClick`: the row being
edited (`rolesRow`) and the initial selection (`newRoles`); the anchor
element is not modelled. -/
structure RolesMenuState where
  rolesRow : OrganizationMemberDto
  newRoles : List MemberRole
deriving DecidableEq, Repr

/-- Embedding of `handleRolesClick`: returns without opening anything when the acting
user cannot manage members, the clicked member is the acting user, or the
member holds the owner role; otherwise stores the row and the initial
selection (and the menu anchor). -/
def handleRolesClick (canManageMembers : Bool) (currentEmail : Option String)
    (member : OrganizationMemberDto) : Option RolesMenuState :=
  if !canManageMembers || isSelfMember currentEmail member || isOwnerMember member then
    none
  else
    some (RolesMenuState.mk member (initialEditRoles member))

/-- The three roles offered as checkboxes in the roles menu (the list
mapped over in the `Menu` body). -/
def rolesMenuToggleableRoles : List MemberRole :=
  [MemberRole.ORGANIZATION_MEMBERS_MANAGER, MemberRole.ORGANIZATION_MANAGER,
   MemberRole.ORGANIZATION_URLS_MANAGER]

/-- Embedding of `handleRoleToggle`: remove the role from the selection when present,
append it otherwise. -/
def handleRoleToggle (role : MemberRole) (prev : List MemberRole) : List MemberRole :=
  if prev.contains role then prev.filter fun r => !(r == role)
  else prev ++ [role]

/-- A sequence of checkbox toggles applied to a selection, in order. -/
def applyRoleToggles (toggles : List MemberRole) (init : List MemberRole) :
    List MemberRole :=
  toggles.foldl (fun acc role => handleRoleToggle role acc) init

/-- Embedding of `UpdateMemberRolesDto`: the payload of `ApiClient.updateMemberRoles`. -/
structure UpdateMemberRolesDto where
  newRoles : List MemberRole
deriving DecidableEq, Repr

/-- Embedding of `handleRolesUpdate` up to the API call: returns without a request when
no row is being edited; otherwise sends
`{newRoles: newRoles.length > 0 ? newRoles : [ORGANIZATION_MEMBER]}`. -/
def handleRolesUpdate (rolesRow : Option OrganizationMemberDto)
    (newRoles : List MemberRole) : Option UpdateMemberRolesDto :=
  match rolesRow with
  | none => none
  | some _ =>
    some (UpdateMemberRolesDto.mk
      (if decide (0 < newRoles.length) then newRoles
       else [MemberRole.ORGANIZATION_MEMBER]))

/-- Embedding of `disabled={newRoles.length === 0}` on the Update Roles button of the
roles menu. -/
def updateRolesButtonDisabled (newRoles : List MemberRole) : Bool :=
  newRoles.length == 0

/-- A click on the Update Roles button: a disabled button fires no click
handler, so the click produces a request only through `handleRolesUpdate`
and only when the button is enabled. -/
def rolesMenuUpdateClick (rolesRow : Option OrganizationMemberDto)
    (newRoles : List MemberRole) : Option UpdateMemberRolesDto :=
  if updateRolesButtonDisabled newRoles then none
  else handleRolesUpdate rolesRow newRoles

/-- The state written by a successful `openUrlsDialog`: the member being
edited, the `allowedAll` checkbox and the `selectedUrls` selection (the
dialog-open and loading flags are not modelled). -/
structure UrlsDialogState where
  urlsMember : OrganizationMemberDto
  allowedAll : Bool
  selectedUrls : List ShortUrlDto
deriving DecidableEq, Repr

/-- Embedding of `openUrlsDialog`: returns without opening anything when the acting
user cannot manage URLs, the member is the acting user, or the member
holds the owner role; otherwise fetches the short URLs (`urlsRes`, `none`
standing for a tagged error so that `entries` stays `[]`), stores the
member, sets `allowedAll` from the member flag, and sets the selection to
`[]` when the flag is set and to the fetched entries whose id is in the
member allowed list otherwise. -/
def openUrlsDialog (canManageUrls : Bool) (currentEmail : Option String)
    (member : OrganizationMemberDto) (urlsRes : Option (List ShortUrlDto)) :
    Option UrlsDialogState :=
  if !canManageUrls || isSelfMember currentEmail member || isOwnerMember member then
    none
  else
    let entries : List ShortUrlDto :=
      match urlsRes with
      | some es => es
      | none => []
    some
      { urlsMember := member
        allowedAll := member.allowedAllUrls
        selectedUrls :=
          if member.allowedAllUrls then []
          else entries.filter fun u => member.allowedUrls.contains u.id }

/-- Embedding of `UpdateMemberUrlsDto`: the payload of `ApiClient.updateMemberUrls`. -/
structure UpdateMemberUrlsDto where
  allowedAllUrls : Bool
  newUrlsIds : List Nat
deriving DecidableEq, Repr

/-- Embedding of `handleUrlsSave` up to the API call: returns without a request when no
member is being edited; otherwise sends
`{allowedAllUrls: allowedAll, newUrlsIds: allowedAll ? [] : selectedUrls.map(u => u.id)}`. -/
def handleUrlsSave (urlsMember : Option OrganizationMemberDto)
    (allowedAll : Bool) (selectedUrls : List ShortUrlDto) :
    Option UpdateMemberUrlsDto :=
  match urlsMember with
  | none => none
  | some _ =>
    some (UpdateMemberUrlsDto.mk allowedAll
      (if allowedAll then [] else selectedUrls.map fun u => u.id))

/-- The per-row affordances computed in the table body render:
`isDisabled = isSelf || isOwner`, `canOpenRolesMenu = canManageMembers &&
!isDisabled` (the roles cell fires `handleRolesClick` only under it and
renders the expand icon only under it), `canEditUrls = canManageUrls &&
!isDisabled` (the URLs cell renders the clickable link only under it), and
the remove icon button renders only under `canManageMembers &&
!isDisabled`. -/
structure RowAffordances where
  canOpenRolesMenu : Bool
  canEditUrls : Bool
  showRemoveAction : Bool
deriving DecidableEq, Repr

/-- The affordances of one rendered member row. -/
def memberRowAffordances (canManageMembers canManageUrls : Bool)
    (currentEmail : Option String) (m : OrganizationMemberDto) : RowAffordances :=
  let isDisabled := isSelfMember currentEmail m || isOwnerMember m
  { canOpenRolesMenu := canManageMembers && !isDisabled
    canEditUrls := canManageUrls && !isDisabled
    showRemoveAction := canManageMembers && !isDisabled }

/-! ### API results and handler effects -/

/-- Modelled from the spec: `ServiceErrorType` lives in `model/common.ts`,
which is not under `src/`; the spec says API errors are tagged error
objects distinguishing error kinds, naming entity-already-exists as an
example.  Kinds other than `ENTITY_ALREADY_EXISTS` are abstracted as
`other` with an opaque tag index. -/
inductive ServiceErrorType where
  | ENTITY_ALREADY_EXISTS
  | other (tag : Nat)
deriving DecidableEq, Repr

/-- Modelled from the spec: `MessageResponseDto` lives in
`model/common.ts`, which is not under `src/`; the spec says each endpoint
returns either a success payload or a tagged error object, so the success
payload is modelled as a message record. -/
structure MessageResponseDto where
  message : String
deriving DecidableEq, Repr

/-- The result of one API call as observed by a handler: a success payload
or a tagged error object carrying an `errorType`. -/
inductive ApiResult (α : Type) where
  | ok (payload : α)
  | err (errorType : ServiceErrorType)
deriving DecidableEq, Repr

/-- The state writes a mutation handler performs after the API call
returns: the toast shown, whether the edit surface was closed, whether
`fetchMembers` was re-run, and whether the handler wrote the `members`
state directly (no handler does: the list changes only through the
re-fetch). -/
structure MutationEffects where
  toast : String
  toastIsError : Bool
  surfaceClosed : Bool
  refetchedMembers : Bool
  wroteMembersDirectly : Bool
deriving DecidableEq, Repr

/-- The tail of `handleRolesUpdate` after the API call: on a tagged error,
show the error toast and return (menu stays open, no re-fetch); on
success, show the success toast, close the menu (`handleRolesClose`) and
re-run `fetchMembers`. -/
def handleRolesUpdateEffects (res : ApiResult MessageResponseDto) : MutationEffects :=
  match res with
  | ApiResult.err _ =>
    { toast := "Could not update member roles", toastIsError := true,
      surfaceClosed := false, refetchedMembers := false, wroteMembersDirectly := false }
  | ApiResult.ok _ =>
    { toast := "Successfully updated member roles", toastIsError := false,
      surfaceClosed := true, refetchedMembers := true, wroteMembersDirectly := false }

/-- The tail of `handleUrlsSave` after the API call: on a tagged error,
show the error toast and return (dialog stays open, no re-fetch); on
success, show the success toast, close the dialog (`setUrlsOpen(false)`)
and re-run `fetchMembers`. -/
def handleUrlsSaveEffects (res : ApiResult MessageResponseDto) : MutationEffects :=
  match res with
  | ApiResult.err _ =>
    { toast := "Could not update allowed URLs of member", toastIsError := true,
      surfaceClosed := false, refetchedMembers := false, wroteMembersDirectly := false }
  | ApiResult.ok _ =>
    { toast := "Successfully updated member allowed URLs", toastIsError := false,
      surfaceClosed := true, refetchedMembers := true, wroteMembersDirectly := false }

/-- The toast message shown when `ApiClient.inviteMember` returns a tagged
error: the entity-already-exists kind gets the member-already-exists
message, every other kind the generic invite-failure message. -/
def inviteSubmitErrorToast (t : ServiceErrorType) : String :=
  if t == ServiceErrorType.ENTITY_ALREADY_EXISTS then
    "Member with this email already exists"
  else
    "Could not invite new member"

/-! ### Sort headers -/

/-- The two sortable columns, name and email. -/
inductive SortField where
  | name
  | email
deriving DecidableEq, Repr

/-- Sort direction, ascending or descending. -/
inductive SortDir where
  | asc
  | desc
deriving DecidableEq, Repr

/-- The slice of page state `handleSort` reads and writes. -/
structure MembersSortState where
  orderBy : SortField
  orderDir : SortDir
  page : Nat
deriving DecidableEq, Repr

/-- Embedding of `handleSort`: the click computes `isAsc`, true exactly when
the clicked column is already the sort column with ascending direction;
the direction becomes descending when `isAsc` and ascending otherwise, the
clicked column becomes the sort column, and the page resets to 0. -/
def handleSort (property : SortField) (s : MembersSortState) : MembersSortState :=
  let isAsc := s.orderBy == property && s.orderDir == SortDir.asc
  { orderBy := property
    orderDir := if isAsc then SortDir.desc else SortDir.asc
    page := 0 }

/-! ### Concrete sample values used to instantiate theorems -/

/-- A concrete non-owner member. -/
def sampleMember : OrganizationMemberDto :=
  OrganizationMemberDto.mk 1 "Sample Person" "sample@example.org" none
    [MemberRole.ORGANIZATION_MEMBER] false []

/-- A concrete member holding the owner role. -/
def sampleOwner : OrganizationMemberDto :=
  OrganizationMemberDto.mk 2 "Owner Person" "owner@example.org" none
    [MemberRole.ORGANIZATION_OWNER] true []

/-- A concrete member holding the owner and admin roles. -/
def sampleOwnerAdmin : OrganizationMemberDto :=
  OrganizationMemberDto.mk 3 "Owner Admin" "owner.admin@example.org" none
    [MemberRole.ORGANIZATION_OWNER, MemberRole.ORGANIZATION_ADMIN] true []

/-- A concrete non-owner member with the allow-all-URLs flag set. -/
def sampleMemberAllUrls : OrganizationMemberDto :=
  OrganizationMemberDto.mk 4 "All Urls Person" "all@example.org" none
    [MemberRole.ORGANIZATION_MEMBER] true []

/-- A concrete short URL. -/
def sampleUrl : ShortUrlDto :=
  ShortUrlDto.mk 7 "https://example.org/a"

/-! ### Theorems -/

/-- C1: for every member-list response, the rows stored for rendering put
every member whose role set contains the owner role before every member
whose role set does not; the client-side sort key depends only on owner
membership, so this holds for every requested sort field and direction
(the server-ordered `entries` list is universally quantified). -/
theorem fetchMembers_rows_owner_first (entries : List OrganizationMemberDto) :
    (fetchMembersSorted entries).Pairwise fun a b =>
      b.roles.contains MemberRole.ORGANIZATION_OWNER = true →
      a.roles.contains MemberRole.ORGANIZATION_OWNER = true := by
  have hs : (fetchMembersSorted entries).Pairwise
      fun a b => decide (fetchMembersComparator a b ≤ 0) = true := by
    apply List.sorted_mergeSort
    · intro a b c hab hbc
      simp only [decide_eq_true_eq, fetchMembersComparator] at *
      split_ifs at hab hbc ⊢ <;> omega
    · intro a b
      simp only [Bool.or_eq_true, decide_eq_true_eq, fetchMembersComparator]
      split_ifs <;> omega
  refine hs.imp ?_
  intro a b h hb
  by_cases ha : a.roles.contains MemberRole.ORGANIZATION_OWNER = true
  · exact ha
  · exfalso
    simp only [decide_eq_true_eq, fetchMembersComparator] at h
    rw [if_pos hb, if_neg ha] at h
    omega

/-- C2: a submission with `allowedAllUrls = false` and an empty
`allowedUrls` selection is rejected by client-side validation with a
field-level error on the `allowedUrls` field, and no invite request is
issued: the recorded errors are exactly the field issues followed by the
`allowedUrls` refinement issue, which is always present.  The roles
hypothesis says every selected role lies in the schema enum, which holds
for every submission of the invite form (its role checkboxes offer enum
roles only), so the object parse never aborts and the refinement runs. -/
theorem invite_empty_urls_rejected (d : InviteFormData)
    (hflag : d.allowedAllUrls = false) (hempty : d.allowedUrls = [])
    (hroles : ∀ r ∈ d.roles, inviteRoleAllowed r = true) :
    handleInviteSubmit d =
      InviteSubmitAction.rejected
        ((inviteBaseIssues d ++
          [ZodIssue.mk "allowedUrls" "Select at least one URL or Allow All URLs"]).map
          fun i => (i.path0, i.message)) ∧
    ("allowedUrls", "Select at least one URL or Allow All URLs") ∈
      ((inviteBaseIssues d ++
        [ZodIssue.mk "allowedUrls" "Select at least one URL or Allow All URLs"]).map
        fun i => (i.path0, i.message)) := by
  have habort : inviteSchemaAborted d = false := by
    simp only [inviteSchemaAborted, List.any_eq_false, Bool.not_eq_true]
    intro r hr
    simp [hroles r hr]
  have hparse : inviteSchemaSafeParse d =
      Except.error (inviteBaseIssues d ++
        [ZodIssue.mk "allowedUrls" "Select at least one URL or Allow All URLs"]) := by
    have href : (d.allowedAllUrls || decide (0 < d.allowedUrls.length)) = false := by
      simp [hflag, hempty]
    have hne : (inviteBaseIssues d ++
        [ZodIssue.mk "allowedUrls" "Select at least one URL or Allow All URLs"]).isEmpty
        = false := by
      simp
    simp only [inviteSchemaSafeParse, habort, Bool.false_eq_true, if_false, href, hne]
  constructor
  · simp [handleInviteSubmit, hparse]
  · exact List.mem_map.mpr
      ⟨ZodIssue.mk "allowedUrls" "Select at least one URL or Allow All URLs",
       List.mem_append_right _ (by simp), rfl⟩

/-- C2 witness: a concrete submission with the flag cleared, no URLs
selected and an empty first name is rejected with the `allowedUrls` field
error recorded alongside the `firstname` field error. -/
theorem invite_empty_urls_rejected_witness :
    handleInviteSubmit (InviteFormData.mk "" "B" "a@b.co" false [] []) =
      InviteSubmitAction.rejected
        ((inviteBaseIssues (InviteFormData.mk "" "B" "a@b.co" false [] []) ++
          [ZodIssue.mk "allowedUrls" "Select at least one URL or Allow All URLs"]).map
          fun i => (i.path0, i.message)) ∧
    ("allowedUrls", "Select at least one URL or Allow All URLs") ∈
      ((inviteBaseIssues (InviteFormData.mk "" "B" "a@b.co" false [] []) ++
        [ZodIssue.mk "allowedUrls" "Select at least one URL or Allow All URLs"]).map
        fun i => (i.path0, i.message)) :=
  invite_empty_urls_rejected (InviteFormData.mk "" "B" "a@b.co" false [] [])
    rfl rfl (by decide)

/-- C3: every role-update payload and every invite payload that is sent
carries a non-empty role list, and when the locally selected role list is
empty the payload carries exactly the base member role. -/
theorem sent_role_sets_nonempty :
    (∀ (row : Option OrganizationMemberDto) (newRoles : List MemberRole)
        (dto : UpdateMemberRolesDto),
        handleRolesUpdate row newRoles = some dto →
        dto.newRoles ≠ [] ∧
          (newRoles = [] → dto.newRoles = [MemberRole.ORGANIZATION_MEMBER])) ∧
    (∀ (d dto : InviteFormData),
        handleInviteSubmit d = InviteSubmitAction.request dto →
        dto.roles ≠ [] ∧
          (d.roles = [] → dto.roles = [MemberRole.ORGANIZATION_MEMBER])) := by
  constructor
  · intro row newRoles dto h
    cases row with
    | none => simp [handleRolesUpdate] at h
    | some m =>
      simp only [handleRolesUpdate, Option.some.injEq] at h
      subst h
      by_cases hl : 0 < newRoles.length
      · refine ⟨?_, ?_⟩
        · simp only [hl, decide_eq_true hl, if_true]
          exact List.ne_nil_of_length_pos hl
        · intro he
          subst he
          simp at hl
      · have he : newRoles = [] := List.eq_nil_of_length_eq_zero (by omega)
        refine ⟨?_, fun _ => ?_⟩ <;> simp [hl]
  · intro d dto h
    unfold handleInviteSubmit at h
    split at h
    · simp at h
    · simp only [InviteSubmitAction.request.injEq] at h
      subst h
      by_cases hl : 0 < d.roles.length
      · refine ⟨?_, ?_⟩
        · simp only [hl, decide_eq_true hl, if_true]
          exact List.ne_nil_of_length_pos hl
        · intro he
          rw [he] at hl
          simp at hl
      · have he : d.roles = [] := List.eq_nil_of_length_eq_zero (by omega)
        refine ⟨?_, fun _ => ?_⟩ <;> simp [hl]

/-- C3 witness: with an empty local selection, the role-update payload and
the invite payload both carry exactly the base member role. -/
theorem sent_role_sets_nonempty_witness :
    ((UpdateMemberRolesDto.mk [MemberRole.ORGANIZATION_MEMBER]).newRoles =
      [MemberRole.ORGANIZATION_MEMBER]) ∧
    ((InviteFormData.mk "Ada" "Lovelace" "ada@example.com" true []
        [MemberRole.ORGANIZATION_MEMBER]).roles =
      [MemberRole.ORGANIZATION_MEMBER]) :=
  ⟨(sent_role_sets_nonempty.1 (some sampleMember) []
      (UpdateMemberRolesDto.mk [MemberRole.ORGANIZATION_MEMBER]) (by decide)).2 rfl,
   (sent_role_sets_nonempty.2 (InviteFormData.mk "Ada" "Lovelace" "ada@example.com" true [] [])
      (InviteFormData.mk "Ada" "Lovelace" "ada@example.com" true []
        [MemberRole.ORGANIZATION_MEMBER]) (by decide)).2 rfl⟩

/-- The owner role is filtered out of the initial edit selection. -/
theorem owner_not_mem_initialEditRoles (m : OrganizationMemberDto) :
    MemberRole.ORGANIZATION_OWNER ∉ initialEditRoles m := by
  intro hmem
  have := List.of_mem_filter hmem
  simp at this

/-- Toggling a non-owner role never introduces the owner role. -/
theorem owner_not_mem_handleRoleToggle (r : MemberRole) (prev : List MemberRole)
    (hprev : MemberRole.ORGANIZATION_OWNER ∉ prev)
    (hr : r ≠ MemberRole.ORGANIZATION_OWNER) :
    MemberRole.ORGANIZATION_OWNER ∉ handleRoleToggle r prev := by
  unfold handleRoleToggle
  split
  · intro hmem
    exact hprev (List.mem_of_mem_filter hmem)
  · intro hmem
    rcases List.mem_append.mp hmem with h | h
    · exact hprev h
    · simp at h
      exact hr h.symm

/-- A sequence of toggles drawn from the menu role list never introduces
the owner role. -/
theorem owner_not_mem_applyRoleToggles (toggles : List MemberRole) :
    ∀ (init : List MemberRole),
      (∀ r ∈ toggles, r ∈ rolesMenuToggleableRoles) →
      MemberRole.ORGANIZATION_OWNER ∉ init →
      MemberRole.ORGANIZATION_OWNER ∉ applyRoleToggles toggles init := by
  induction toggles with
  | nil => intro init _ hinit; exact hinit
  | cons t ts ih =>
    intro init htog hinit
    simp only [applyRoleToggles, List.foldl_cons]
    apply ih
    · intro r hr
      exact htog r (List.mem_cons_of_mem _ hr)
    · apply owner_not_mem_handleRoleToggle
      · exact hinit
      · have ht := htog t (List.mem_cons_self _ _)
        intro he
        subst he
        simp [rolesMenuToggleableRoles] at ht

/-- C4: the toggleable role list of the roles menu excludes the owner
role, and for every member, every toggle sequence drawn from that list and
every issued role-update request, the resulting payload never contains the
owner role (the initial selection filters owner out, and toggles cannot
reintroduce it). -/
theorem owner_role_never_in_update_payload
    (member : OrganizationMemberDto) (toggles : List MemberRole)
    (htog : ∀ r ∈ toggles, r ∈ rolesMenuToggleableRoles)
    (row : Option OrganizationMemberDto) (dto : UpdateMemberRolesDto)
    (hreq : handleRolesUpdate row
      (applyRoleToggles toggles (initialEditRoles member)) = some dto) :
    MemberRole.ORGANIZATION_OWNER ∉ dto.newRoles ∧
    MemberRole.ORGANIZATION_OWNER ∉ rolesMenuToggleableRoles := by
  refine ⟨?_, by simp [rolesMenuToggleableRoles]⟩
  have hsel : MemberRole.ORGANIZATION_OWNER ∉
      applyRoleToggles toggles (initialEditRoles member) :=
    owner_not_mem_applyRoleToggles toggles (initialEditRoles member) htog
      (owner_not_mem_initialEditRoles member)
  cases row with
  | none => simp [handleRolesUpdate] at hreq
  | some m =>
    simp only [handleRolesUpdate, Option.some.injEq] at hreq
    subst hreq
    by_cases hl : 0 < (applyRoleToggles toggles (initialEditRoles member)).length
    · simpa [hl] using hsel
    · simp [hl]

/-- C4 witness: editing an owner-and-admin member and toggling the members
manager role yields a payload without the owner role. -/
theorem owner_role_never_in_update_payload_witness :
    MemberRole.ORGANIZATION_OWNER ∉
      (UpdateMemberRolesDto.mk [MemberRole.ORGANIZATION_ADMIN,
        MemberRole.ORGANIZATION_MEMBERS_MANAGER]).newRoles ∧
    MemberRole.ORGANIZATION_OWNER ∉ rolesMenuToggleableRoles :=
  owner_role_never_in_update_payload sampleOwnerAdmin
    [MemberRole.ORGANIZATION_MEMBERS_MANAGER] (by decide) (some sampleMember)
    (UpdateMemberRolesDto.mk [MemberRole.ORGANIZATION_ADMIN,
      MemberRole.ORGANIZATION_MEMBERS_MANAGER]) (by decide)

/-- C5: a row whose member is the acting user or holds the owner role
exposes no edit affordance: `handleRolesClick` and `openUrlsDialog` return
without opening anything, and the roles-menu and URL-edit controls are not
rendered for that row. -/
theorem self_or_owner_rows_not_actionable
    (canManageMembers canManageUrls : Bool) (currentEmail : Option String)
    (m : OrganizationMemberDto)
    (h : currentEmail = some m.email ∨ MemberRole.ORGANIZATION_OWNER ∈ m.roles) :
    handleRolesClick canManageMembers currentEmail m = none ∧
    (∀ urlsRes, openUrlsDialog canManageUrls currentEmail m urlsRes = none) ∧
    (memberRowAffordances canManageMembers canManageUrls currentEmail m).canOpenRolesMenu
      = false ∧
    (memberRowAffordances canManageMembers canManageUrls currentEmail m).canEditUrls
      = false := by
  rcases h with h | h
  · have hself : isSelfMember currentEmail m = true := by
      simp [isSelfMember, h]
    refine ⟨?_, fun urlsRes => ?_, ?_, ?_⟩ <;>
      simp [handleRolesClick, openUrlsDialog, memberRowAffordances, hself]
  · have howner : isOwnerMember m = true := by
      simp only [isOwnerMember, List.contains_iff_exists_mem_beq]
      exact ⟨MemberRole.ORGANIZATION_OWNER, h, by simp⟩
    refine ⟨?_, fun urlsRes => ?_, ?_, ?_⟩ <;>
      simp [handleRolesClick, openUrlsDialog, memberRowAffordances, howner]

/-- C5 witness: an owner row with both manage permissions granted exposes
no affordance. -/
theorem self_or_owner_rows_not_actionable_witness :
    handleRolesClick true none sampleOwner = none ∧
    openUrlsDialog true none sampleOwner (some [sampleUrl]) = none ∧
    (memberRowAffordances true true none sampleOwner).canOpenRolesMenu = false ∧
    (memberRowAffordances true true none sampleOwner).canEditUrls = false :=
  have h := self_or_owner_rows_not_actionable true true none sampleOwner
    (Or.inr (by decide))
  ⟨h.1, h.2.1 (some [sampleUrl]), h.2.2.1, h.2.2.2⟩

/-- C6 counterexample: an invite submission with the allow-all flag set and
a non-empty locally stored URL selection passes validation and is sent with
`allowedAllUrls = true` together with the non-empty `allowedUrls` list: the
invite dto spreads `inviteData` without clearing the list. -/
theorem urls_flag_list_exclusive_cex :
    handleInviteSubmit (InviteFormData.mk "Ada" "Lovelace" "ada@example.com" true [7] []) =
      InviteSubmitAction.request
        (InviteFormData.mk "Ada" "Lovelace" "ada@example.com" true [7]
          [MemberRole.ORGANIZATION_MEMBER]) ∧
    (InviteFormData.mk "Ada" "Lovelace" "ada@example.com" true [7]
        [MemberRole.ORGANIZATION_MEMBER]).allowedAllUrls = true ∧
    (InviteFormData.mk "Ada" "Lovelace" "ada@example.com" true [7]
        [MemberRole.ORGANIZATION_MEMBER]).allowedUrls ≠ [] := by
  exact ⟨by decide, rfl, by decide⟩

/-- C6 (amended): whenever the allow-all flag is set, the URL-id list sent
with the URL-access save is empty and the URL-access dialog opens with an
empty selection; the invite submission, by contrast, forwards the locally
stored allowed-URL list unchanged, so its payload can carry the set flag
together with a non-empty list. -/
theorem urls_flag_list_exclusive_amended :
    (∀ (row : Option OrganizationMemberDto) (selected : List ShortUrlDto)
        (dto : UpdateMemberUrlsDto),
        handleUrlsSave row true selected = some dto → dto.newUrlsIds = []) ∧
    (∀ (cu : Bool) (ce : Option String) (m : OrganizationMemberDto)
        (urlsRes : Option (List ShortUrlDto)) (st : UrlsDialogState),
        openUrlsDialog cu ce m urlsRes = some st →
        m.allowedAllUrls = true → st.selectedUrls = []) ∧
    (∀ (d dto : InviteFormData),
        handleInviteSubmit d = InviteSubmitAction.request dto →
        dto.allowedUrls = d.allowedUrls) := by
  refine ⟨?_, ?_, ?_⟩
  · intro row selected dto h
    cases row with
    | none => simp [handleUrlsSave] at h
    | some m =>
      simp only [handleUrlsSave, Option.some.injEq] at h
      subst h
      simp
  · intro cu ce m urlsRes st h hflag
    unfold openUrlsDialog at h
    split at h
    · simp at h
    · simp only [Option.some.injEq] at h
      subst h
      simp [hflag]
  · intro d dto h
    unfold handleInviteSubmit at h
    split at h
    · simp at h
    · simp only [InviteSubmitAction.request.injEq] at h
      subst h
      rfl

/-- C6 witness: a URL-access save with the flag set sends an empty list, a
dialog opened on a flag-set member starts with an empty selection, and an
invite request forwards the stored list unchanged. -/
theorem urls_flag_list_exclusive_amended_witness :
    (UpdateMemberUrlsDto.mk true []).newUrlsIds = [] ∧
    (UrlsDialogState.mk sampleMemberAllUrls true []).selectedUrls = [] ∧
    (InviteFormData.mk "Ada" "Lovelace" "ada@example.com" true []
        [MemberRole.ORGANIZATION_MEMBER]).allowedUrls =
      (InviteFormData.mk "Ada" "Lovelace" "ada@example.com" true [] []).allowedUrls :=
  ⟨urls_flag_list_exclusive_amended.1 (some sampleMember) [sampleUrl]
      (UpdateMemberUrlsDto.mk true []) (by decide),
   urls_flag_list_exclusive_amended.2.1 true none sampleMemberAllUrls (some [sampleUrl])
      (UrlsDialogState.mk sampleMemberAllUrls true []) (by decide) rfl,
   urls_flag_list_exclusive_amended.2.2
      (InviteFormData.mk "Ada" "Lovelace" "ada@example.com" true [] [])
      (InviteFormData.mk "Ada" "Lovelace" "ada@example.com" true []
        [MemberRole.ORGANIZATION_MEMBER]) (by decide)⟩

/-- C7: on a successful role update or URL-access update the member list is
re-fetched and the edit surface is closed; on a tagged error neither
happens; and in all cases the handler never writes the members state
directly (the list changes only through the re-fetch). -/
theorem mutation_success_refetches_and_closes
    (p : MessageResponseDto) (t : ServiceErrorType) :
    (handleRolesUpdateEffects (ApiResult.ok p)).refetchedMembers = true ∧
    (handleRolesUpdateEffects (ApiResult.ok p)).surfaceClosed = true ∧
    (handleRolesUpdateEffects (ApiResult.err t)).refetchedMembers = false ∧
    (handleRolesUpdateEffects (ApiResult.err t)).surfaceClosed = false ∧
    (handleUrlsSaveEffects (ApiResult.ok p)).refetchedMembers = true ∧
    (handleUrlsSaveEffects (ApiResult.ok p)).surfaceClosed = true ∧
    (handleUrlsSaveEffects (ApiResult.err t)).refetchedMembers = false ∧
    (handleUrlsSaveEffects (ApiResult.err t)).surfaceClosed = false ∧
    (handleRolesUpdateEffects (ApiResult.ok p)).wroteMembersDirectly = false ∧
    (handleRolesUpdateEffects (ApiResult.err t)).wroteMembersDirectly = false ∧
    (handleUrlsSaveEffects (ApiResult.ok p)).wroteMembersDirectly = false ∧
    (handleUrlsSaveEffects (ApiResult.err t)).wroteMembersDirectly = false :=
  ⟨rfl, rfl, rfl, rfl, rfl, rfl, rfl, rfl, rfl, rfl, rfl, rfl⟩

/-- C8: the entity-already-exists invite error shows the specific
member-already-exists message, every other error tag shows the generic
invite-failure message, and the two messages differ. -/
theorem invite_error_toast_messages :
    inviteSubmitErrorToast ServiceErrorType.ENTITY_ALREADY_EXISTS =
      "Member with this email already exists" ∧
    (∀ t : ServiceErrorType, t ≠ ServiceErrorType.ENTITY_ALREADY_EXISTS →
      inviteSubmitErrorToast t = "Could not invite new member") ∧
    "Member with this email already exists" ≠ "Could not invite new member" := by
  refine ⟨rfl, ?_, by decide⟩
  intro t ht
  cases t with
  | ENTITY_ALREADY_EXISTS => exact absurd rfl ht
  | other tag => rfl

/-- C8 witness: a non-duplicate error tag shows the generic message. -/
theorem invite_error_toast_messages_witness :
    inviteSubmitErrorToast (ServiceErrorType.other 0) = "Could not invite new member" :=
  invite_error_toast_messages.2.1 (ServiceErrorType.other 0) (by decide)

/-- C9: the Update Roles control is disabled exactly when the selected role
list is empty, and a click with an empty selection produces no role-update
request. -/
theorem update_roles_disabled_iff_empty (newRoles : List MemberRole)
    (row : Option OrganizationMemberDto) :
    updateRolesButtonDisabled newRoles = decide (newRoles = []) ∧
    rolesMenuUpdateClick row [] = none := by
  constructor
  · cases newRoles <;> simp [updateRolesButtonDisabled]
  · simp [rolesMenuUpdateClick, updateRolesButtonDisabled]

/-- C10: a sort-header click on the active ascending column flips the
direction to descending; every other click makes the clicked column the
sort column with ascending direction; the page always resets to 0. -/
theorem handleSort_transition (p : SortField) (s : MembersSortState) :
    (s.orderBy = p → s.orderDir = SortDir.asc →
      handleSort p s = MembersSortState.mk p SortDir.desc 0) ∧
    (¬(s.orderBy = p ∧ s.orderDir = SortDir.asc) →
      handleSort p s = MembersSortState.mk p SortDir.asc 0) ∧
    (handleSort p s).page = 0 := by
  obtain ⟨ob, od, pg⟩ := s
  refine ⟨?_, ?_, rfl⟩
  · intro h1 h2
    simp only at h1 h2
    subst h1
    subst h2
    simp [handleSort]
  · intro h
    cases p <;> cases ob <;> cases od <;>
      first
        | rfl
        | exact absurd ⟨rfl, rfl⟩ h

/-- C10 witness: clicking the active ascending name column flips to
descending; clicking the other column resets to ascending; both reset the
page. -/
theorem handleSort_transition_witness :
    handleSort SortField.name (MembersSortState.mk SortField.name SortDir.asc 3) =
      MembersSortState.mk SortField.name SortDir.desc 0 ∧
    handleSort SortField.email (MembersSortState.mk SortField.name SortDir.asc 3) =
      MembersSortState.mk SortField.email SortDir.asc 0 :=
  ⟨(handleSort_transition SortField.name
      (MembersSortState.mk SortField.name SortDir.asc 3)).1 rfl rfl,
   (handleSort_transition SortField.email
      (MembersSortState.mk SortField.name SortDir.asc 3)).2.1 (by decide)⟩

/-- C1 witness: the owner-first ordering on a concrete two-member
response. -/
theorem fetchMembers_rows_owner_first_witness :
    (fetchMembersSorted [sampleMember, sampleOwner]).Pairwise fun a b =>
      b.roles.contains MemberRole.ORGANIZATION_OWNER = true →
      a.roles.contains MemberRole.ORGANIZATION_OWNER = true :=
  fetchMembers_rows_owner_first [sampleMember, sampleOwner]

/-- C7 witness: a concrete successful role update re-fetches the member
list. -/
theorem mutation_success_refetches_and_closes_witness :
    (handleRolesUpdateEffects (ApiResult.ok (MessageResponseDto.mk "ok"))).refetchedMembers
      = true :=
  (mutation_success_refetches_and_closes (MessageResponseDto.mk "ok")
    (ServiceErrorType.other 0)).1

/-- C9 witness: with an empty selection the control is disabled and a click
produces no request. -/
theorem update_roles_disabled_iff_empty_witness :
    updateRolesButtonDisabled [] = decide (([] : List MemberRole) = []) ∧
    rolesMenuUpdateClick (some sampleMember) [] = none :=
  update_roles_disabled_iff_empty [] (some sampleMember)

end ShortenerDashboard
